import Mathlib

/-!
Verification development for the gridstatusio client (gs_client.py).

The file gives a shallow embedding of the fetch engine of GridStatusClient:

* the retry executor of GridStatusClient.get (lines 99-121): a loop over a
  finite trace of HTTP responses, recording the backoff delays it sleeps and
  the number of requests it issues;
* the pagination driver of GridStatusClient.get_dataset (lines 329-420): a
  loop over a finite trace of decoded pages, accumulating page tables in
  arrival order;
* the schema normalizer of GridStatusClient.get_dataset (lines 422-455):
  a fold over the column names of the merged table that parses datetime
  columns as UTC and optionally converts and renames them.

Machine time is abstracted: a datetime column carries its list of instants
(as integers) plus a tag recording whether it is unparsed, parsed as UTC, or
converted to a named zone; parsing and zone conversion preserve the instants.
-/

namespace GridStatus

/-! ### Resilient request executor: GridStatusClient.get retry loop -/

/-- One HTTP response as seen by the retry loop: a status code and a body. -/
structure HttpResponse where
  status : Nat
  body : String
deriving DecidableEq

/-- Outcome of the retry loop of GridStatusClient.get. `delays` is the list
of backoff delays slept, in order; `requests` is the number of HTTP requests
issued. `outOfResponses` marks a trace too short for the loop to finish. -/
inductive GetOutcome
  | success (delays : List Nat) (requests : Nat)
  | rateLimitExceeded (requests : Nat)
  | requestFailed (status : Nat) (body : String) (delays : List Nat) (requests : Nat)
  | outOfResponses
deriving DecidableEq

/-- The retry loop of GridStatusClient.get (gs_client.py lines 99-121),
consuming one response from the trace per iteration:

* status 200 breaks out with success;
* status 429 with `retries = maxRetries` raises the rate limit error;
* status 429 otherwise sleeps `initial_delay * 2 ^ retries` with
  `initial_delay = 1`, increments `retries` and retries;
* any other status raises immediately with the status and body. -/
def getLoop (maxRetries retries : Nat) (delays : List Nat) (requests : Nat) :
    List HttpResponse → GetOutcome
  | [] => .outOfResponses
  | r :: rest =>
    if r.status = 200 then
      .success delays (requests + 1)
    else if r.status = 429 ∧ retries = maxRetries then
      .rateLimitExceeded (requests + 1)
    else if r.status = 429 then
      getLoop maxRetries (retries + 1) (delays ++ [2 ^ retries]) (requests + 1) rest
    else
      .requestFailed r.status r.body delays (requests + 1)

/-- GridStatusClient.get on a response trace: the retry loop started with
`retries = 0`, no delays slept and no requests issued. -/
def getRun (maxRetries : Nat) (responses : List HttpResponse) : GetOutcome :=
  getLoop maxRetries 0 [] 0 responses

theorem twoPowSum : ∀ n : Nat, ((List.range n).map (fun i => 2 ^ i)).sum = 2 ^ n - 1
  | 0 => rfl
  | n + 1 => by
    rw [List.range_succ, List.map_append, List.sum_append, twoPowSum n]
    have h : 1 ≤ 2 ^ n := Nat.one_le_two_pow
    simp [pow_succ]
    omega

theorem pow_delays_shift (r len : Nat) :
    (List.range (len + 1)).map (fun i => 2 ^ (r + i)) =
      2 ^ r :: (List.range len).map (fun i => 2 ^ (r + 1 + i)) := by
  rw [List.range_succ_eq_map, List.map_cons, List.map_map]
  congr 1
  refine List.map_congr_left (fun i _ => ?_)
  simp only [Function.comp_apply]
  congr 1
  omega

theorem getLoop_success_after_429s (maxRetries : Nat) :
    ∀ (lead : List HttpResponse) (retries : Nat) (delays : List Nat) (requests : Nat)
      (ok : HttpResponse) (rest : List HttpResponse),
      (∀ r ∈ lead, r.status = 429) → ok.status = 200 →
      retries + lead.length ≤ maxRetries →
      getLoop maxRetries retries delays requests (lead ++ ok :: rest) =
        .success (delays ++ (List.range lead.length).map (fun i => 2 ^ (retries + i)))
          (requests + lead.length + 1)
  | [], retries, delays, requests, ok, rest, _, h200, _ => by
    simp [getLoop, h200]
  | r :: lead, retries, delays, requests, ok, rest, h429, h200, hle => by
    have hr : r.status = 429 := h429 r (by simp)
    have hmax : retries ≠ maxRetries := by
      simp at hle
      omega
    have ih := getLoop_success_after_429s maxRetries lead (retries + 1)
      (delays ++ [2 ^ retries]) (requests + 1) ok rest
      (fun x hx => h429 x (by simp [hx])) h200 (by simp at hle ⊢; omega)
    rw [List.cons_append, getLoop]
    rw [if_neg (by omega), if_neg (by simp [hr, hmax]), if_pos hr, ih]
    rw [List.length_cons, pow_delays_shift]
    simp only [List.append_assoc, List.singleton_append]
    congr 2
    omega

theorem getLoop_429_exhaust (maxRetries : Nat) :
    ∀ (lead : List HttpResponse) (retries : Nat) (delays : List Nat) (requests : Nat)
      (rest : List HttpResponse),
      (∀ r ∈ lead, r.status = 429) →
      retries + lead.length = maxRetries + 1 → retries ≤ maxRetries →
      getLoop maxRetries retries delays requests (lead ++ rest) =
        .rateLimitExceeded (requests + lead.length)
  | [], retries, delays, requests, rest, _, hlen, hle => by
    simp at hlen
    omega
  | r :: lead, retries, delays, requests, rest, h429, hlen, hle => by
    have hr : r.status = 429 := h429 r (by simp)
    simp only [List.length_cons] at hlen
    rw [List.cons_append, getLoop, if_neg (by omega)]
    by_cases hmax : retries = maxRetries
    · have hlen0 : lead.length = 0 := by omega
      rw [if_pos (by simp [hr, hmax])]
      congr 1
      simp only [List.length_cons]
      omega
    · have ih := getLoop_429_exhaust maxRetries lead (retries + 1) (delays ++ [2 ^ retries])
        (requests + 1) rest (fun x hx => h429 x (by simp [hx])) (by omega) (by omega)
      rw [if_neg (by simp [hr, hmax]), if_pos hr, ih]
      congr 1
      simp only [List.length_cons]
      omega

/-- C5: with N consecutive 429 responses followed by a 200 and
`max_retries ≥ N`, the executor succeeds after N + 1 requests, the delay
slept before retry i being `1 * 2 ^ i`, and the total time slept being
`2 ^ 0 + 2 ^ 1 + ... + 2 ^ (N - 1) = 2 ^ N - 1`. -/
theorem retry_backoff_success (maxRetries : Nat) (lead : List HttpResponse)
    (ok : HttpResponse) (rest : List HttpResponse)
    (h429 : ∀ r ∈ lead, r.status = 429) (h200 : ok.status = 200)
    (hN : lead.length ≤ maxRetries) :
    getRun maxRetries (lead ++ ok :: rest) =
        .success ((List.range lead.length).map (fun i => 2 ^ i)) (lead.length + 1) ∧
      ((List.range lead.length).map (fun i => 2 ^ i)).sum = 2 ^ lead.length - 1 := by
  constructor
  · have h := getLoop_success_after_429s maxRetries lead 0 [] 0 ok rest h429 h200 (by omega)
    simpa using h
  · exact twoPowSum lead.length

/-- Witness for retry_backoff_success: two 429 responses then a 200, with
`max_retries = 3`, succeed after 3 requests having slept 1 then 2 seconds. -/
theorem retry_backoff_success_witness :
    getRun 3 [⟨429, "slow down"⟩, ⟨429, "slow down"⟩, ⟨200, "ok"⟩] = .success [1, 2] 3 := by
  have h := retry_backoff_success 3 [⟨429, "slow down"⟩, ⟨429, "slow down"⟩] ⟨200, "ok"⟩ []
    (by decide) (by decide) (by decide)
  exact h.1

/-- C6: with `max_retries = k` and k + 1 consecutive 429 responses, the
executor fails with the rate limit error after exactly k + 1 requests; the
rest of the trace is never consumed, so no further requests are attempted. -/
theorem retry_exhaustion (k : Nat) (lead rest : List HttpResponse)
    (h429 : ∀ r ∈ lead, r.status = 429) (hlen : lead.length = k + 1) :
    getRun k (lead ++ rest) = .rateLimitExceeded (k + 1) := by
  have h := getLoop_429_exhaust k lead 0 [] 0 rest h429 (by omega) (by omega)
  simpa [hlen] using h

/-- Witness for retry_exhaustion: with `max_retries = 1`, two 429 responses
exhaust the retries even though a 200 would have followed. -/
theorem retry_exhaustion_witness :
    getRun 1 [⟨429, "slow down"⟩, ⟨429, "slow down"⟩, ⟨200, "too late"⟩] =
      .rateLimitExceeded 2 := by
  have h := retry_exhaustion 1 [⟨429, "slow down"⟩, ⟨429, "slow down"⟩] [⟨200, "too late"⟩]
    (by decide) (by decide)
  exact h

/-- C7: a response whose status is neither 200 nor 429 fails immediately with
the status and body, with no delay slept and exactly one request issued; the
rest of the trace is never consumed. -/
theorem non_retryable_status_fails (maxRetries status : Nat) (body : String)
    (rest : List HttpResponse) (h1 : status ≠ 200) (h2 : status ≠ 429) :
    getRun maxRetries (⟨status, body⟩ :: rest) = .requestFailed status body [] 1 := by
  simp [getRun, getLoop, h1, h2]

/-- Witness for non_retryable_status_fails: a 500 response aborts at once. -/
theorem non_retryable_status_fails_witness :
    getRun 3 [⟨500, "server error"⟩, ⟨200, "ok"⟩] = .requestFailed 500 "server error" [] 1 := by
  exact non_retryable_status_fails 3 500 "server error" [⟨200, "ok"⟩] (by decide) (by decide)

/-! ### Pagination driver: GridStatusClient.get_dataset loop -/

/-- Page metadata: the `meta` object of a JSON response. `hasNextPage`
defaults to false when absent, so it is carried directly; the cursor may be
absent, which `meta.get` renders as None. -/
structure PageMeta where
  hasNextPage : Bool
  cursor : Option String
deriving DecidableEq

/-- One column descriptor from `dataset_metadata.all_columns`. -/
structure ColumnMeta where
  name : String
  is_datetime : Bool
deriving DecidableEq

/-- A successfully received page, as the server sends it: rows, the `meta`
object and the `all_columns` descriptors of `dataset_metadata`. -/
structure PageData where
  rows : List (List String)
  meta : PageMeta
  all_columns : List ColumnMeta
deriving DecidableEq

/-- The triple returned by GridStatusClient.get (lines 126-137): in JSON
mode the decoded frame plus `meta` and `dataset_metadata`; in CSV mode only
the frame, with `meta = None` and `dataset_metadata = None`. -/
structure GetReturn where
  df : List (List String)
  meta : Option PageMeta
  dataset_metadata : Option (List ColumnMeta)
deriving DecidableEq

/-- Decoding step of GridStatusClient.get for a successful response. -/
def decodeResponse (request_format : String) (p : PageData) : GetReturn :=
  if request_format = "json" then ⟨p.rows, some p.meta, some p.all_columns⟩
  else ⟨p.rows, none, none⟩

/-- Mutable state of the pagination loop of get_dataset (lines 329-341):
page counter, current cursor (initialized to the empty string), the list of
accumulated page frames, total rows, requests issued so far, and the last
received dataset metadata. -/
structure LoopState where
  page : Nat
  cursor : Option String
  dfs : List (List (List String))
  total_rows : Nat
  requests : Nat
  dataset_metadata : Option (List ColumnMeta)
deriving DecidableEq

def initialLoopState : LoopState := ⟨1, some "", [], 0, 0, none⟩

/-- Outcome of a get_dataset fetch over a finite page trace.

* `done rows requests`: the loop exited because a page reported
  `hasNextPage = false`; `rows` is the concatenation of all page frames.
* `noneMetaError`: the loop read `meta.get("hasNextPage")` while `meta` was
  None (the AttributeError raised in CSV mode).
* `noneMetadataError`: the epilogue read `dataset_metadata.get` while it was
  None.
* `awaitingNextPage st`: the trace is exhausted but the loop would issue yet
  another request; `st` is the state it would carry into that request.
* `conflictingTimezoneError`: the ValueError raised when both `tz` and
  `timezone` are truthy, before any request. -/
inductive FetchOutcome
  | done (rows : List (List String)) (requests : Nat)
  | noneMetaError (requests : Nat)
  | noneMetadataError (requests : Nat)
  | awaitingNextPage (st : LoopState)
  | conflictingTimezoneError (requests : Nat)
deriving DecidableEq

def FetchOutcome.requestCount : FetchOutcome → Nat
  | .done _ n => n
  | .noneMetaError n => n
  | .noneMetadataError n => n
  | .awaitingNextPage st => st.requests
  | .conflictingTimezoneError n => n

def FetchOutcome.stillLooping : FetchOutcome → Bool
  | .awaitingNextPage _ => true
  | _ => false

/-- The pagination loop of get_dataset (lines 343-422), one trace element
per iteration. Each iteration issues one request, reads
`meta.get("hasNextPage")` (an error if `meta` is None), appends the frame,
advances the cursor and the page counter, and loops while `hasNextPage`
holds. On exit the frames are concatenated in arrival order and the epilogue
reads `dataset_metadata.get("all_columns")` (an error if it is None).

Mirroring the source, the row `limit` is received but never consulted by the
loop control: it is only forwarded to the server in the request parameters
and used for progress logging (lines 407-410). -/
def fetchLoop (request_format : String) (limit : Option Nat) :
    List PageData → LoopState → FetchOutcome
  | [], st => .awaitingNextPage st
  | p :: rest, st =>
    let ret := decodeResponse request_format p
    match ret.meta with
    | none => .noneMetaError (st.requests + 1)
    | some m =>
      let st2 : LoopState :=
        ⟨st.page + 1, m.cursor, st.dfs ++ [ret.df],
          st.total_rows + ret.df.length, st.requests + 1, ret.dataset_metadata⟩
      if m.hasNextPage then fetchLoop request_format limit rest st2
      else
        match st2.dataset_metadata with
        | none => .noneMetadataError st2.requests
        | some _ => .done st2.dfs.flatten st2.requests

/-- Truthiness of an optional string parameter, as Python sees it: None and
the empty string are falsy. -/
def truthy : Option String → Bool
  | none => false
  | some s => !(s == "")

/-- GridStatusClient.get_dataset on a page trace: the conflict check between
the legacy `tz` and the new `timezone` parameter (lines 314-321) runs before
the pagination loop, hence before any request. -/
def get_dataset (request_format : String) (tz timezone : Option String)
    (limit : Option Nat) (trace : List PageData) : FetchOutcome :=
  if truthy tz && truthy timezone then .conflictingTimezoneError 0
  else fetchLoop request_format limit trace initialLoopState

theorem decodeResponse_json (p : PageData) :
    decodeResponse "json" p = ⟨p.rows, some p.meta, some p.all_columns⟩ := by
  simp [decodeResponse]

theorem fetchLoop_limit_irrelevant (request_format : String) (la lb : Option Nat) :
    ∀ (trace : List PageData) (st : LoopState),
      fetchLoop request_format la trace st = fetchLoop request_format lb trace st
  | [], _ => rfl
  | p :: rest, st => by
    rw [fetchLoop, fetchLoop]
    rcases hm : (decodeResponse request_format p).meta with _ | m
    · simp [hm]
    · simp only [hm]
      rcases m.hasNextPage with _ | _
      · simp
      · simpa using fetchLoop_limit_irrelevant request_format la lb rest _

theorem fetchLoop_done (limit : Option Nat) :
    ∀ (lead : List PageData) (last : PageData) (st : LoopState),
      (∀ p ∈ lead, p.meta.hasNextPage = true) → last.meta.hasNextPage = false →
      fetchLoop "json" limit (lead ++ [last]) st =
        .done ((st.dfs ++ (lead ++ [last]).map (fun p => p.rows)).flatten)
          (st.requests + lead.length + 1)
  | [], last, st, _, hlast => by
    simp [fetchLoop, decodeResponse_json, hlast]
  | p :: lead, last, st, hlead, hlast => by
    have hp : p.meta.hasNextPage = true := hlead p (by simp)
    rw [List.cons_append, fetchLoop]
    simp only [decodeResponse_json]
    rw [if_pos hp]
    rw [fetchLoop_done limit lead last _ (fun x hx => hlead x (by simp [hx])) hlast]
    congr 1
    · simp
    · simp only [List.length_cons]
      omega

theorem fetchLoop_stuck_aux (limit : Option Nat) (rows : List (List String))
    (cur : Option String) (cols : List ColumnMeta) :
    ∀ (n : Nat) (st : LoopState), ∃ st2 : LoopState,
      fetchLoop "json" limit (List.replicate n ⟨rows, ⟨true, cur⟩, cols⟩) st =
          .awaitingNextPage st2 ∧
        st2.requests = st.requests + n
  | 0, st => ⟨st, rfl, rfl⟩
  | n + 1, st => by
    rw [List.replicate_succ, fetchLoop]
    simp only [decodeResponse_json, if_pos rfl]
    obtain ⟨st2, h1, h2⟩ := fetchLoop_stuck_aux limit rows cur cols n
      ⟨st.page + 1, cur, st.dfs ++ [rows], st.total_rows + rows.length,
        st.requests + 1, some cols⟩
    exact ⟨st2, h1, by simp [h2]; omega⟩

/-- The page a misbehaving server repeats forever: one row, a cursor that
never changes, and `hasNextPage` always true. -/
def stuckPage : PageData := ⟨[["r"]], ⟨true, some "c"⟩, []⟩

/-- C3 counterexample: the trace repeats `stuckPage` three times, so the
cursor of page 2 equals the cursor of page 1 while `hasNextPage` is true.
The claim says the fetch must then fail with a ProtocolError; instead the
client issues a third request and is still looping, and no error of any kind
is raised — the outcome has no error constructor, it is awaiting page 4. -/
theorem stuck_cursor_counterexample :
    (get_dataset "json" none none none [stuckPage, stuckPage, stuckPage]).stillLooping
        = true ∧
      (get_dataset "json" none none none [stuckPage, stuckPage, stuckPage]).requestCount
        = 3 := by
  constructor
  · rfl
  · rfl

/-- C3 amended: the source has no cursor-advance guard. Against a server
that repeats the same cursor with `hasNextPage = true`, the pagination loop
never terminates and never raises: after any finite trace of n identical
pages it has issued n requests and is still awaiting the next page. -/
theorem stuck_cursor_requests_forever (n : Nat) :
    ∃ st : LoopState,
      get_dataset "json" none none none (List.replicate n stuckPage) =
          .awaitingNextPage st ∧
        st.requests = n := by
  obtain ⟨st, h1, h2⟩ :=
    fetchLoop_stuck_aux none [["r"]] (some "c") [] n initialLoopState
  exact ⟨st, h1, by simpa [initialLoopState] using h2⟩

/-- C2 counterexample: `limit = 1` with pages of one row each. After the
first page `total_rows = 1 ≥ limit`, yet the loop keeps going until the
third page reports `hasNextPage = false`, issuing 3 requests, which exceeds
the claimed bound of ceil(limit / page_size) + 1 = 2 iterations. -/
theorem pagination_limit_bound_counterexample :
    get_dataset "json" none none (some 1)
        [⟨[["r1"]], ⟨true, some "c1"⟩, []⟩, ⟨[["r2"]], ⟨true, some "c2"⟩, []⟩,
          ⟨[["r3"]], ⟨false, none⟩, []⟩] =
      .done [["r1"], ["r2"], ["r3"]] 3 ∧ ¬(3 ≤ (1 + 1 - 1) / 1 + 1) := by
  constructor
  · rfl
  · decide

/-- C2 amended: the loop control never consults the row limit; the
pagination loop terminates exactly when a page reports
`hasNextPage = false`, after (number of preceding pages) + 1 iterations,
and the outcome is identical for every value of `limit`. -/
theorem pagination_terminates_on_last_page (la lb : Option Nat)
    (lead : List PageData) (last : PageData)
    (hlead : ∀ p ∈ lead, p.meta.hasNextPage = true)
    (hlast : last.meta.hasNextPage = false) :
    get_dataset "json" none none la (lead ++ [last]) =
        .done (((lead ++ [last]).map (fun p => p.rows)).flatten) (lead.length + 1) ∧
      get_dataset "json" none none la (lead ++ [last]) =
        get_dataset "json" none none lb (lead ++ [last]) := by
  constructor
  · have h := fetchLoop_done la lead last initialLoopState hlead hlast
    simpa [get_dataset, initialLoopState] using h
  · simp only [get_dataset, truthy, Bool.false_and, if_neg Bool.false_ne_true]
    exact fetchLoop_limit_irrelevant "json" la lb (lead ++ [last]) initialLoopState

/-- Witness for pagination_terminates_on_last_page: two continuing pages
then a final one, fetched with limit 1 and with no limit, both finish after
exactly 3 requests with the same result. -/
theorem pagination_terminates_on_last_page_witness :
    get_dataset "json" none none (some 1)
          [⟨[["a"]], ⟨true, some "c1"⟩, []⟩, ⟨[["b"]], ⟨true, some "c2"⟩, []⟩,
            ⟨[["c"]], ⟨false, none⟩, []⟩] =
        .done [["a"], ["b"], ["c"]] 3 ∧
      get_dataset "json" none none (some 1)
          [⟨[["a"]], ⟨true, some "c1"⟩, []⟩, ⟨[["b"]], ⟨true, some "c2"⟩, []⟩,
            ⟨[["c"]], ⟨false, none⟩, []⟩] =
        get_dataset "json" none none none
          [⟨[["a"]], ⟨true, some "c1"⟩, []⟩, ⟨[["b"]], ⟨true, some "c2"⟩, []⟩,
            ⟨[["c"]], ⟨false, none⟩, []⟩] := by
  have h := pagination_terminates_on_last_page (some 1) none
    [⟨[["a"]], ⟨true, some "c1"⟩, []⟩, ⟨[["b"]], ⟨true, some "c2"⟩, []⟩]
    ⟨[["c"]], ⟨false, none⟩, []⟩ (by decide) (by decide)
  exact ⟨h.1, h.2⟩

/-- C4: a successful multi-page fetch returns exactly the concatenation of
the received pages in arrival order, each page keeping its in-page order;
the row count is the sum of the page row counts; and no rows are dropped to
satisfy a limit — the result is the same for every `limit`, including one
smaller than the total. -/
theorem fetch_rows_concat_no_truncation (limit : Option Nat)
    (lead : List PageData) (last : PageData)
    (hlead : ∀ p ∈ lead, p.meta.hasNextPage = true)
    (hlast : last.meta.hasNextPage = false) :
    get_dataset "json" none none limit (lead ++ [last]) =
        .done (((lead ++ [last]).map (fun p => p.rows)).flatten) (lead.length + 1) ∧
      (((lead ++ [last]).map (fun p => p.rows)).flatten).length =
        ((lead ++ [last]).map (fun p => p.rows.length)).sum := by
  constructor
  · have h := fetchLoop_done limit lead last initialLoopState hlead hlast
    simpa [get_dataset, initialLoopState] using h
  · rw [List.length_flatten, List.map_map]
    rfl

/-- Witness for fetch_rows_concat_no_truncation: pages of 2, 2 and 1 rows
under `limit = 3` yield all 5 rows in order — the overshoot beyond the limit
is returned, not truncated. -/
theorem fetch_rows_concat_no_truncation_witness :
    get_dataset "json" none none (some 3)
          [⟨[["a1"], ["a2"]], ⟨true, some "c1"⟩, []⟩,
            ⟨[["b1"], ["b2"]], ⟨true, some "c2"⟩, []⟩,
            ⟨[["c1"]], ⟨false, none⟩, []⟩] =
        .done [["a1"], ["a2"], ["b1"], ["b2"], ["c1"]] 3 ∧
      (5 : Nat) = [2, 2, 1].sum := by
  have h := fetch_rows_concat_no_truncation (some 3)
    [⟨[["a1"], ["a2"]], ⟨true, some "c1"⟩, []⟩, ⟨[["b1"], ["b2"]], ⟨true, some "c2"⟩, []⟩]
    ⟨[["c1"]], ⟨false, none⟩, []⟩ (by decide) (by decide)
  exact ⟨h.1, by decide⟩

/-- C10: in CSV mode GridStatusClient.get returns `meta = None` and
`dataset_metadata = None`, and the pagination loop dereferences `meta`
unconditionally after the first page, so every get_dataset fetch aborts
with the None access after exactly one request even though every HTTP
request succeeded (the trace consists only of successfully decoded pages). -/
theorem csv_mode_get_dataset_aborts :
    (∀ p : PageData,
        (decodeResponse "csv" p).meta = none ∧
          (decodeResponse "csv" p).dataset_metadata = none) ∧
      ∀ (limit : Option Nat) (p : PageData) (rest : List PageData),
        get_dataset "csv" none none limit (p :: rest) = .noneMetaError 1 := by
  constructor
  · intro p
    exact ⟨by simp [decodeResponse], by simp [decodeResponse]⟩
  · intro limit p rest
    simp [get_dataset, truthy, fetchLoop, decodeResponse, initialLoopState]

/-! ### Client construction: GridStatusClient.__init__ -/

/-- Immutable client configuration established by the constructor. -/
structure Client where
  api_key : String
  request_format : String
  max_retries : Nat
deriving DecidableEq

/-- GridStatusClient.__init__ (lines 51-71): resolve the API key from the
argument or the environment, raise if neither is set, then assert the
request format is json or csv. The constructor performs no HTTP request: no
request capability even appears in this definition. -/
def clientInit (api_key env_key : Option String) (request_format : String)
    (max_retries : Nat) : Except String Client :=
  let key := match api_key with
    | none => env_key
    | some k => some k
  match key with
  | none => .error "No API key provided"
  | some k =>
    if request_format = "json" ∨ request_format = "csv" then
      .ok ⟨k, request_format, max_retries⟩
    else .error "request_format must be json or csv"

/-- C8: each configuration fault errors before any network request —
a missing API key (argument and environment both unset) fails construction
whatever the format; a wire format outside json and csv fails construction;
and supplying both a truthy legacy `tz` and a truthy `timezone` makes
get_dataset raise with zero requests issued. -/
theorem configuration_faults_fail_fast :
    (∀ (fmt : String) (r : Nat), clientInit none none fmt r = .error "No API key provided") ∧
      (∀ (k : String) (e : Option String) (fmt : String) (r : Nat),
        fmt ≠ "json" → fmt ≠ "csv" →
          clientInit (some k) e fmt r = .error "request_format must be json or csv") ∧
      ∀ (s t fmt : String) (limit : Option Nat) (trace : List PageData),
        s ≠ "" → t ≠ "" →
          get_dataset fmt (some s) (some t) limit trace = .conflictingTimezoneError 0 := by
  refine ⟨fun fmt r => rfl, fun k e fmt r h1 h2 => ?_, fun s t fmt limit trace hs ht => ?_⟩
  · simp [clientInit, h1, h2]
  · simp [get_dataset, truthy, hs, ht]

/-- Witness for configuration_faults_fail_fast: a client with no key, a
client with format xml, and a fetch passing both tz and timezone, all fail
with no request issued. -/
theorem configuration_faults_fail_fast_witness :
    clientInit none none "json" 3 = .error "No API key provided" ∧
      clientInit (some "k") none "xml" 3 = .error "request_format must be json or csv" ∧
      get_dataset "json" (some "US/Pacific") (some "America/New_York") none [] =
        .conflictingTimezoneError 0 := by
  exact ⟨configuration_faults_fail_fast.1 "json" 3,
    configuration_faults_fail_fast.2.1 "k" none "xml" 3 (by decide) (by decide),
    configuration_faults_fail_fast.2.2 "US/Pacific" "America/New_York" "json" none []
      (by decide) (by decide)⟩

/-! ### Schema normalizer: get_dataset lines 422-455

A column of the merged table carries its name, the instants of its values
(as integers) and a tag for its temporal interpretation: `raw` for values
not yet parsed, `utc` after `pd.to_datetime(col, utc=True)`, and
`localized z` after `col.dt.tz_convert(z)`. Both parsing and conversion
preserve the underlying instants, so `vals` never changes. -/

inductive ColState
  | raw
  | utc
  | localized (z : String)
deriving DecidableEq

structure Col where
  name : String
  state : ColState
  vals : List Int
deriving DecidableEq

/-- Removal of every occurrence of the four characters of the `_utc`
pattern, left to right without overlap: the semantics of the Python
expression `col_name.replace("_utc", "")`. -/
def stripUtc : List Char → List Char
  | '_' :: 'u' :: 't' :: 'c' :: rest => stripUtc rest
  | c :: rest => c :: stripUtc rest
  | [] => []

def listEndsWith (pat s : List Char) : Bool :=
  decide (s.drop (s.length - pat.length) = pat) && decide (pat.length ≤ s.length)

/-- The Python expression `col_name.endswith("_utc")`. -/
def endsWithUtc (s : String) : Bool := listEndsWith "_utc".data s.data

/-- The Python expression `col_name.replace("_utc", "") + "_local"`: the new
name given to a converted column (line 452). -/
def stripUtcLocal (s : String) : String := ⟨stripUtc s.data⟩ ++ "_local"

/-- Columns treated as datetimes even without metadata (lines 427-430). -/
def alwaysDatetimeColumns : List String := ["interval_start_utc", "interval_end_utc"]

/-- The datetime test of lines 432-440: the first metadata entry whose name
matches, if any, decides; otherwise membership in the always-datetime set. -/
def isDatetimeCol (all_columns : List ColumnMeta) (name : String) : Bool :=
  (match all_columns.find? (fun c => c.name == name) with
    | some m => m.is_datetime
    | none => false) || alwaysDatetimeColumns.contains name

/-- The conversion condition of lines 446-448: the legacy branch converts
whenever `tz` is truthy and not UTC; the new branch converts when `timezone`
is truthy, not UTC, and the column name does not end in `_utc`. -/
def convertCond (tz timezone : Option String) (name : String) : Bool :=
  (truthy tz && !(tz == some "UTC")) ||
    (truthy timezone && !(timezone == some "UTC") && !(endsWithUtc name))

/-- The Python expression `timezone or tz` (line 449). -/
def pyOrElse (a b : Option String) : Option String := if truthy a then a else b

def targetZone (tz timezone : Option String) : String := (pyOrElse timezone tz).getD ""

/-- The body of the loop of lines 432-453 for one column: a non-datetime
column is untouched; a datetime column is parsed as UTC; if the conversion
condition holds it is additionally converted to `timezone or tz` and renamed
by `name.replace("_utc", "") + "_local"`. -/
def applyCol (all_columns : List ColumnMeta) (tz timezone : Option String) (c : Col) : Col :=
  if isDatetimeCol all_columns c.name then
    if convertCond tz timezone c.name then
      ⟨stripUtcLocal c.name, .localized (targetZone tz timezone), c.vals⟩
    else ⟨c.name, .utc, c.vals⟩
  else c

/-- One iteration of the normalization loop: the assignment, conversion and
rename all address the current frame by the iterated column name. -/
def processName (all_columns : List ColumnMeta) (tz timezone : Option String)
    (df : List Col) (name : String) : List Col :=
  df.map (fun c => if c.name == name then applyCol all_columns tz timezone c else c)

/-- The normalization step of get_dataset (lines 432-453): a fold over the
snapshot of the column names of the merged frame — the loop iterates over
the columns of the frame as it was when the loop started, while the renames
rebind the frame. -/
def normalize (all_columns : List ColumnMeta) (tz timezone : Option String)
    (df : List Col) : List Col :=
  (df.map (fun c => c.name)).foldl (processName all_columns tz timezone) df

theorem applyCol_name (all_columns : List ColumnMeta) (tz timezone : Option String)
    (c : Col) :
    (applyCol all_columns tz timezone c).name = c.name ∨
      (applyCol all_columns tz timezone c).name = stripUtcLocal c.name := by
  rw [applyCol]
  rcases isDatetimeCol all_columns c.name with _ | _
  · simp
  · rcases convertCond tz timezone c.name with _ | _
    · simp
    · simp

theorem processName_untouched (all_columns : List ColumnMeta)
    (tz timezone : Option String) (df : List Col) (name : String)
    (h : ∀ c ∈ df, c.name ≠ name) :
    processName all_columns tz timezone df name = df := by
  rw [processName]
  have h2 : List.map (fun c => if c.name == name then applyCol all_columns tz timezone c else c) df
      = List.map id df :=
    List.map_congr_left (fun c hc => by rw [if_neg (by simpa using h c hc)]; rfl)
  rw [h2, List.map_id]

theorem foldl_processName_head (all_columns : List ColumnMeta)
    (tz timezone : Option String) :
    ∀ (names : List String) (x : Col) (df : List Col), x.name ∉ names →
      names.foldl (processName all_columns tz timezone) (x :: df) =
        x :: names.foldl (processName all_columns tz timezone) df
  | [], x, df, _ => rfl
  | n :: names, x, df, hx => by
    have hxn : x.name ≠ n := by
      intro h
      exact hx (by simp [h])
    rw [List.foldl_cons, List.foldl_cons]
    have hstep : processName all_columns tz timezone (x :: df) n =
        x :: processName all_columns tz timezone df n := by
      rw [processName, List.map_cons, if_neg (by simpa using hxn)]
      rfl
    rw [hstep]
    exact foldl_processName_head all_columns tz timezone names x
      (processName all_columns tz timezone df n) (fun h => hx (by simp [h]))

theorem normalize_eq_map (all_columns : List ColumnMeta) (tz timezone : Option String) :
    ∀ df : List Col, (df.map (fun c => c.name)).Nodup →
      (∀ c ∈ df, stripUtcLocal c.name ∉ df.map (fun c => c.name)) →
      normalize all_columns tz timezone df = df.map (applyCol all_columns tz timezone)
  | [], _, _ => rfl
  | c :: df, hnd, hfresh => by
    simp only [List.map_cons, List.nodup_cons] at hnd
    have hcn : c.name ∉ df.map (fun c => c.name) := hnd.1
    rw [normalize, List.map_cons, List.foldl_cons]
    have hstep : processName all_columns tz timezone (c :: df) c.name =
        applyCol all_columns tz timezone c :: df := by
      rw [processName, List.map_cons, if_pos (by simp)]
      rw [show List.map
          (fun x => if x.name == c.name then applyCol all_columns tz timezone x else x) df
          = processName all_columns tz timezone df c.name from rfl]
      rw [processName_untouched all_columns tz timezone df c.name
        (fun x hx hxc => hcn (by simp [← hxc]; exact ⟨x, hx, rfl⟩))]
    rw [hstep]
    have hhead : (applyCol all_columns tz timezone c).name ∉ df.map (fun c => c.name) := by
      rcases applyCol_name all_columns tz timezone c with h | h
      · rw [h]
        exact hcn
      · rw [h]
        intro hmem
        exact hfresh c (by simp) (by simp [hmem])
    rw [foldl_processName_head all_columns tz timezone (df.map (fun c => c.name)) _ df hhead]
    have ih := normalize_eq_map all_columns tz timezone df hnd.2
      (fun x hx hmem => hfresh x (by simp [hx]) (by simp; right; simpa using hmem))
    rw [normalize] at ih
    rw [ih, List.map_cons]

/-- C1 counterexample: a table whose only column is `interval_start_utc`
(marked datetime), fetched with `timezone = "America/New_York"` and no
legacy tz. The claim says the result holds both the original column and a
new `interval_start_local` column with the converted instants. The code
leaves the `_utc` column as the single column, parsed as UTC, and adds no
`interval_start_local` column at all — with the `timezone` parameter the
local columns come from the server, not from this normalization step. -/
theorem normalize_no_local_column_counterexample :
    normalize [⟨"interval_start_utc", true⟩] none (some "America/New_York")
        [⟨"interval_start_utc", ColState.raw, [0, 3600]⟩] =
      [⟨"interval_start_utc", ColState.utc, [0, 3600]⟩] ∧
      ((normalize [⟨"interval_start_utc", true⟩] none (some "America/New_York")
          [⟨"interval_start_utc", ColState.raw, [0, 3600]⟩]).map
            (fun c => c.name)).contains "interval_start_local" = false := by
  decide

/-- C1 amended: with `timezone` set, nonempty and not UTC (legacy tz unset),
and the column names pairwise distinct and the rename targets fresh, the
normalizer maps each column independently; a datetime column carrying the
`_utc` suffix is retained with its name and instants unchanged, merely
parsed as UTC, and no `_local` counterpart is added (the column count is
unchanged); a datetime column without the `_utc` suffix is converted to the
requested zone in place and renamed by appending `_local`. -/
theorem normalize_timezone_characterization (all_columns : List ColumnMeta)
    (z : String) (df : List Col) (hz0 : z ≠ "") (hz1 : z ≠ "UTC")
    (hnd : (df.map (fun c => c.name)).Nodup)
    (hfresh : ∀ c ∈ df, stripUtcLocal c.name ∉ df.map (fun c => c.name)) :
    normalize all_columns none (some z) df =
        df.map (applyCol all_columns none (some z)) ∧
      (normalize all_columns none (some z) df).length = df.length ∧
      (∀ c ∈ df, endsWithUtc c.name = true → isDatetimeCol all_columns c.name = true →
        applyCol all_columns none (some z) c = ⟨c.name, ColState.utc, c.vals⟩) ∧
      (∀ c ∈ df, endsWithUtc c.name = false → isDatetimeCol all_columns c.name = true →
        applyCol all_columns none (some z) c =
          ⟨stripUtcLocal c.name, ColState.localized z, c.vals⟩) := by
  have hmap := normalize_eq_map all_columns none (some z) df hnd hfresh
  refine ⟨hmap, by rw [hmap, List.length_map], fun c _ h1 h2 => ?_, fun c _ h1 h2 => ?_⟩
  · have hcc : convertCond none (some z) c.name = false := by
      simp [convertCond, truthy, h1, hz0, hz1]
    simp [applyCol, h2, hcc]
  · have hcc : convertCond none (some z) c.name = true := by
      simp [convertCond, truthy, h1, hz0, hz1]
    have hzone : targetZone none (some z) = z := by
      simp [targetZone, pyOrElse, truthy, hz0]
    simp [applyCol, h2, hcc, hzone]

/-- Witness for normalize_timezone_characterization: a `_utc` datetime
column and a non-datetime column, normalized to America/New_York: the
`_utc` column survives unrenamed as UTC and nothing is added. -/
theorem normalize_timezone_characterization_witness :
    normalize [⟨"interval_start_utc", true⟩, ⟨"lmp", false⟩] none
        (some "America/New_York")
        [⟨"interval_start_utc", ColState.raw, [10]⟩, ⟨"lmp", ColState.raw, [7]⟩] =
      [⟨"interval_start_utc", ColState.utc, [10]⟩, ⟨"lmp", ColState.raw, [7]⟩] := by
  have h := normalize_timezone_characterization
    [⟨"interval_start_utc", true⟩, ⟨"lmp", false⟩] "America/New_York"
    [⟨"interval_start_utc", ColState.raw, [10]⟩, ⟨"lmp", ColState.raw, [7]⟩]
    (by decide) (by decide) (by decide) (by decide)
  rw [h.1]
  decide

/-- A column the normalization step leaves alone: either not identified as
a datetime column, or already parsed as UTC with the conversion condition
failing on its name. -/
def normalizedCol (all_columns : List ColumnMeta) (tz timezone : Option String)
    (c : Col) : Bool :=
  !(isDatetimeCol all_columns c.name) ||
    (c.state == ColState.utc && !(convertCond tz timezone c.name))

theorem applyCol_fix (all_columns : List ColumnMeta) (tz timezone : Option String)
    (c : Col) (h : normalizedCol all_columns tz timezone c = true) :
    applyCol all_columns tz timezone c = c := by
  simp only [normalizedCol, Bool.or_eq_true, Bool.not_eq_true', Bool.and_eq_true,
    beq_iff_eq] at h
  rcases h with h | ⟨h1, h2⟩
  · rw [applyCol, if_neg (by simp [h])]
  · by_cases hd : isDatetimeCol all_columns c.name = true
    · rw [applyCol, if_pos hd, if_neg (by simp [h2])]
      obtain ⟨nm, stt, vl⟩ := c
      have h1b : stt = ColState.utc := h1
      rw [h1b]
    · rw [applyCol, if_neg hd]

theorem foldl_processName_fix (all_columns : List ColumnMeta)
    (tz timezone : Option String) :
    ∀ (names : List String) (df : List Col),
      (∀ c ∈ df, normalizedCol all_columns tz timezone c = true) →
      names.foldl (processName all_columns tz timezone) df = df
  | [], _, _ => rfl
  | n :: names, df, h => by
    rw [List.foldl_cons]
    have hp : processName all_columns tz timezone df n = df := by
      rw [processName]
      have h2 : List.map
          (fun c => if c.name == n then applyCol all_columns tz timezone c else c) df
          = List.map id df :=
        List.map_congr_left (fun c hc => by
          by_cases hcn : (c.name == n) = true
          · rw [if_pos hcn, applyCol_fix all_columns tz timezone c (h c hc)]
            rfl
          · rw [if_neg hcn]
            rfl)
      rw [h2, List.map_id]
    rw [hp]
    exact foldl_processName_fix all_columns tz timezone names df h

/-- C9 counterexample: a table already in normalized form — its single
datetime column is already parsed as UTC and the table has no
`_utc`-suffixed column at all, so certainly no `_utc`-suffixed raw column
pending conversion. With `timezone = "America/New_York"` the normalization
step is not a no-op: the column does not end in `_utc`, so it is converted
again and renamed by appending `_local`. -/
theorem normalize_idempotence_counterexample :
    ([⟨"lmp_time", ColState.utc, [0]⟩] : List Col).all
        (fun c => !(endsWithUtc c.name)) = true ∧
      normalize [⟨"lmp_time", true⟩] none (some "America/New_York")
          [⟨"lmp_time", ColState.utc, [0]⟩] ≠
        [⟨"lmp_time", ColState.utc, [0]⟩] := by
  decide

/-- C9 amended: the normalization step is a no-op exactly on tables whose
every column it leaves alone: each column is either not datetime-identified,
or already parsed as UTC with the conversion condition failing on its name
(with `timezone` set and not UTC, that means the name carries the `_utc`
suffix; with neither tz nor timezone set, every already-parsed table
qualifies). The hypothesis of the claim — no `_utc`-suffixed raw column
pending conversion — is not sufficient, as the counterexample shows. -/
theorem normalize_noop_on_normalized (all_columns : List ColumnMeta)
    (tz timezone : Option String) (df : List Col)
    (h : ∀ c ∈ df, normalizedCol all_columns tz timezone c = true) :
    normalize all_columns tz timezone df = df := by
  rw [normalize]
  exact foldl_processName_fix all_columns tz timezone (df.map (fun c => c.name)) df h

/-- Witness for normalize_noop_on_normalized: re-normalizing a table whose
datetime column is already UTC-parsed and `_utc`-named, under
`timezone = "America/New_York"`, returns it unchanged. -/
theorem normalize_noop_on_normalized_witness :
    normalize [⟨"interval_start_utc", true⟩, ⟨"lmp", false⟩] none
        (some "America/New_York")
        [⟨"interval_start_utc", ColState.utc, [0]⟩, ⟨"lmp", ColState.raw, [42]⟩] =
      [⟨"interval_start_utc", ColState.utc, [0]⟩, ⟨"lmp", ColState.raw, [42]⟩] :=
  normalize_noop_on_normalized [⟨"interval_start_utc", true⟩, ⟨"lmp", false⟩]
    none (some "America/New_York")
    [⟨"interval_start_utc", ColState.utc, [0]⟩, ⟨"lmp", ColState.raw, [42]⟩]
    (by decide)

end GridStatus
